import Mathlib

/-!
Verification of the `autot.py` Lisp-translation pipeline: a shallow embedding
of its string processing, embedding-store construction and persistence, the
translation engine (caching, parsing, artifact writing) and the run
orchestrator, together with theorems settling the specification's claims.

Strings are modelled as `List Char` (named `Str` below); Python regular
expressions used by the program are modelled by dedicated scanning functions
faithful to the Python `re` semantics of each concrete pattern (leftmost
match, greedy/lazy quantifiers as they appear in the source).
-/

/-- Text is modelled as a list of characters. -/
abbrev Str := List Char

/-- The whitespace class of Python's `\s` / `str.strip` (ASCII part). -/
def pyIsSpace (c : Char) : Bool :=
  c = ' ' || c = '\t' || c = '\n' || c = '\r' || c = '\x0b' || c = '\x0c'

/-- Python `str.strip()`: drop leading and trailing whitespace. -/
def pyStrip (s : Str) : Str :=
  List.rdropWhile pyIsSpace (s.dropWhile pyIsSpace)

/-- Model of `re.sub(r';.*', '', code)`: each match starts at a `;` and
extends to just before the next newline (or end of string); the newline
itself is kept.  Mirrors `_preprocess_code`'s first substitution. -/
def removeComments : Str → Str
  | [] => []
  | c :: rest =>
    if c = ';' then removeComments (rest.dropWhile (fun d => d ≠ '\n'))
    else c :: removeComments rest
termination_by s => s.length
decreasing_by
  · exact Nat.lt_succ_of_le (List.dropWhile_suffix _).sublist.length_le
  · simp

/-- Model of `re.sub(r'\s+', ' ', code)`: every maximal whitespace run is
replaced by a single space.  Mirrors `_preprocess_code`'s second
substitution. -/
def collapseWs : Str → Str
  | [] => []
  | c :: rest =>
    if pyIsSpace c then ' ' :: collapseWs (rest.dropWhile pyIsSpace)
    else c :: collapseWs rest
termination_by s => s.length
decreasing_by
  · exact Nat.lt_succ_of_le (List.dropWhile_suffix _).sublist.length_le
  · simp

/-- Model of `_preprocess_code`: strip `;` line comments, collapse whitespace
runs to single spaces, trim. -/
def preprocessCode (s : Str) : Str :=
  pyStrip (collapseWs (removeComments s))

/-! ### Idempotence of `_preprocess_code` (claim C10) -/

theorem dropWhile_head_false (p : Char → Bool) (l : List Char) (d : Char) (t' : List Char)
    (h : l.dropWhile p = d :: t') : p d = false := by
  induction l with
  | nil => simp at h
  | cons c r ih =>
    rw [List.dropWhile_cons] at h
    by_cases hc : p c = true
    · rw [if_pos hc] at h; exact ih h
    · rw [if_neg hc] at h
      cases h
      simpa using hc

theorem removeComments_semi (rest : Str) :
    removeComments (';' :: rest) = removeComments (rest.dropWhile (fun d => d ≠ '\n')) := by
  rw [removeComments]; simp

theorem removeComments_cons (c : Char) (rest : Str) (h : ¬ c = ';') :
    removeComments (c :: rest) = c :: removeComments rest := by
  rw [removeComments, if_neg h]

theorem semi_not_mem_removeComments (s : Str) : ';' ∉ removeComments s := by
  induction s using removeComments.induct with
  | case1 => rw [removeComments]; simp
  | case2 rest ih =>
    rw [removeComments_semi]
    exact ih
  | case3 c rest h ih =>
    rw [removeComments_cons c rest h]
    intro hmem
    rcases List.mem_cons.mp hmem with h1 | h2
    · exact h h1.symm
    · exact ih h2

theorem removeComments_eq_self (s : Str) (h : ';' ∉ s) : removeComments s = s := by
  induction s with
  | nil => rw [removeComments]
  | cons c rest ih =>
    have hc : ¬ (c = ';') := fun hc => h (hc ▸ List.mem_cons_self c rest)
    rw [removeComments_cons c rest hc, ih (fun hm => h (List.mem_cons_of_mem c hm))]

theorem mem_collapseWs (s : Str) (c : Char) (h : c ∈ collapseWs s) :
    c = ' ' ∨ c ∈ s := by
  induction s using collapseWs.induct with
  | case1 => simp [collapseWs] at h
  | case2 d rest hd ih =>
    rw [collapseWs, if_pos hd] at h
    rcases List.mem_cons.mp h with h1 | h2
    · exact Or.inl h1
    · rcases ih h2 with h3 | h3
      · exact Or.inl h3
      · exact Or.inr (List.mem_cons_of_mem d ((List.dropWhile_suffix _).subset h3))
  | case3 d rest hd ih =>
    rw [collapseWs, if_neg hd] at h
    rcases List.mem_cons.mp h with h1 | h2
    · exact Or.inr (h1 ▸ List.mem_cons_self d rest)
    · rcases ih h2 with h3 | h3
      · exact Or.inl h3
      · exact Or.inr (List.mem_cons_of_mem d h3)

/-- A string is in collapsed form when every whitespace character in it is a
plain space and no two spaces are adjacent. -/
def Collapsed (s : Str) : Prop :=
  (∀ c ∈ s, pyIsSpace c → c = ' ') ∧ s.Chain' (fun a b => ¬(a = ' ' ∧ b = ' '))

theorem head?_collapseWs_not_space (t : Str) (c : Char)
    (h : (collapseWs (t.dropWhile pyIsSpace)).head? = some c) : ¬ (c = ' ') := by
  rcases hd : t.dropWhile pyIsSpace with _ | ⟨d, t'⟩
  · rw [hd] at h; rw [collapseWs] at h; simp at h
  · have hnd : pyIsSpace d = false := dropWhile_head_false pyIsSpace t d t' hd
    rw [hd, collapseWs, if_neg (by simp [hnd])] at h
    simp only [List.head?_cons, Option.some.injEq] at h
    intro hc
    rw [h, hc] at hnd
    simp [pyIsSpace] at hnd

theorem collapsed_collapseWs (s : Str) : Collapsed (collapseWs s) := by
  induction s using collapseWs.induct with
  | case1 => exact ⟨by simp [collapseWs], by simp [collapseWs]⟩
  | case2 d rest hd ih =>
    rw [collapseWs, if_pos hd]
    refine ⟨?_, ?_⟩
    · intro c hc _
      rcases List.mem_cons.mp hc with h1 | h2
      · exact h1
      · rcases mem_collapseWs _ _ h2 with h3 | h3
        · exact h3
        · exact ih.1 c h2 (by assumption)
    · rw [List.chain'_cons']
      refine ⟨?_, ih.2⟩
      intro y hy hcon
      exact head?_collapseWs_not_space rest y hy hcon.2
  | case3 d rest hd ih =>
    rw [collapseWs, if_neg hd]
    refine ⟨?_, ?_⟩
    · intro c hc hsp
      rcases List.mem_cons.mp hc with h1 | h2
      · exact absurd (h1 ▸ hsp) (by simpa using hd)
      · exact ih.1 c h2 hsp
    · rw [List.chain'_cons']
      refine ⟨?_, ih.2⟩
      intro y _ hcon
      have : pyIsSpace d = true := by rw [hcon.1]; simp [pyIsSpace]
      exact hd this

theorem collapseWs_eq_self (s : Str) (h : Collapsed s) : collapseWs s = s := by
  induction s with
  | nil => rw [collapseWs]
  | cons c rest ih =>
    have htail : Collapsed rest :=
      ⟨fun d hd => h.1 d (List.mem_cons_of_mem c hd), h.2.tail⟩
    by_cases hc : pyIsSpace c
    · have hceq : c = ' ' := h.1 c (List.mem_cons_self c rest) hc
      have hdrop : rest.dropWhile pyIsSpace = rest := by
        rcases rest with _ | ⟨d, r'⟩
        · rfl
        · have hd' : ¬ (pyIsSpace d = true) := by
            intro hd
            have hds : d = ' ' := htail.1 d (List.mem_cons_self d r') hd
            have := List.chain'_cons.mp h.2
            exact this.1 ⟨hceq, hds⟩
          simp [List.dropWhile_cons, hd']
      rw [collapseWs, if_pos hc, hdrop, ih htail, hceq]
    · rw [collapseWs, if_neg hc, ih htail]

theorem collapsed_within (s t : Str) (h : Collapsed t) (hinf : s <:+: t) :
    Collapsed s :=
  ⟨fun c hc => h.1 c (hinf.subset hc), List.Chain'.infix h.2 hinf⟩

theorem pyStrip_within (s : Str) : pyStrip s <:+: s := by
  unfold pyStrip
  exact List.IsInfix.trans
    (List.IsPrefix.isInfix ( List.rdropWhile_prefix _ _))
    (List.IsSuffix.isInfix (List.dropWhile_suffix _))

theorem pyStrip_idempotent (s : Str) : pyStrip (pyStrip s) = pyStrip s := by
  unfold pyStrip
  have h1 : (List.rdropWhile pyIsSpace (s.dropWhile pyIsSpace)).dropWhile pyIsSpace
      = List.rdropWhile pyIsSpace (s.dropWhile pyIsSpace) := by
    rcases hd : List.rdropWhile pyIsSpace (s.dropWhile pyIsSpace) with _ | ⟨d, t'⟩
    · rfl
    · have hpre := List.rdropWhile_prefix pyIsSpace (s.dropWhile pyIsSpace)
      rw [hd] at hpre
      rcases hpre with ⟨tail2, htl⟩
      have hnd : pyIsSpace d = false :=
        dropWhile_head_false pyIsSpace s d (t' ++ tail2) (by rw [← htl]; simp)
      simp [List.dropWhile_cons, hnd]
  rw [h1, List.rdropWhile_idempotent]

theorem semi_not_mem_preprocessCode (s : Str) : ';' ∉ preprocessCode s := by
  unfold preprocessCode
  intro hmem
  have h1 : ';' ∈ collapseWs (removeComments s) := (pyStrip_within _).subset hmem
  rcases mem_collapseWs _ _ h1 with h2 | h2
  · simp at h2
  · exact semi_not_mem_removeComments s h2

theorem collapsed_preprocessCode (s : Str) : Collapsed (preprocessCode s) :=
  collapsed_within _ _ (collapsed_collapseWs (removeComments s)) (pyStrip_within _)

/-- Claim C10: normalization used for history items (strip `;` line comments,
collapse all whitespace runs to single spaces, trim) is idempotent: applying
it twice gives the same result as applying it once. -/
theorem preprocessCode_idempotent (s : Str) :
    preprocessCode (preprocessCode s) = preprocessCode s := by
  conv_lhs => rw [preprocessCode]
  rw [removeComments_eq_self _ (semi_not_mem_preprocessCode s),
    collapseWs_eq_self _ (collapsed_preprocessCode s)]
  exact pyStrip_idempotent _

/-! ### Substring search and the output-block parsers of the Translation Engine -/

/-- Python `str.lower()` restricted to ASCII letters (the only characters the
patterns of the program contain). -/
def pyLower (c : Char) : Char :=
  if 'A' ≤ c ∧ c ≤ 'Z' then Char.ofNat (c.toNat + 32) else c

/-- Lowercase a string, modelling the `re.IGNORECASE` flag by searching in the
lowercased text with a lowercase literal pattern. -/
def lowerL (s : Str) : Str := s.map pyLower

/-- Index of the first occurrence of `pat` as a contiguous substring of `s`,
the leftmost-match rule of `re.search`. -/
def findSub (pat : Str) : Str → Option Nat
  | [] => if pat.isPrefixOf [] then some 0 else none
  | c :: rest =>
    if pat.isPrefixOf (c :: rest) then some 0
    else (findSub pat rest).map (· + 1)

/-- First occurrence of `pat` in `s` at an index `≥ k`. -/
def findSubFrom (pat s : Str) (k : Nat) : Option Nat :=
  (findSub pat (s.drop k)).map (· + k)

theorem findSub_some (pat s : Str) (i : Nat)
    (hpre : pat.isPrefixOf (s.drop i) = true)
    (hmin : ∀ k, k < i → ¬ (pat.isPrefixOf (s.drop k) = true)) :
    findSub pat s = some i := by
  induction s generalizing i with
  | nil =>
    rcases Nat.eq_zero_or_pos i with hi | hi
    · subst hi
      simp only [List.drop_nil] at hpre
      simp [findSub, hpre]
    · exact absurd (by simpa using hpre) (by simpa using hmin 0 hi)
  | cons c rest ih =>
    rcases i with _ | i'
    · simp only [List.drop_zero] at hpre
      simp [findSub, hpre]
    · have h0 : ¬ (pat.isPrefixOf (c :: rest) = true) := by
        have := hmin 0 (Nat.succ_pos i')
        simpa using this
      rw [findSub, if_neg h0]
      have hrest : findSub pat rest = some i' := by
        apply ih
        · simpa using hpre
        · intro k hk
          have := hmin (k + 1) (Nat.succ_lt_succ hk)
          simpa using this
      rw [hrest]
      rfl

/-- Model of `_extract_code_block`'s regex `re.search(r'```lisp\n(.*?)\n```',
text, DOTALL | IGNORECASE)`: the region between the first (case-insensitive)
occurrence of the opener and the first closer after it. -/
def codeBlockMatch (s : Str) : Option Str :=
  match findSub ("```lisp\n".data) (lowerL s) with
  | none => none
  | some i =>
    match findSubFrom ("\n```".data) (lowerL s) (i + 8) with
    | none => none
    | some j => some ((s.drop (i + 8)).take (j - (i + 8)))

/-- Model of `_extract_code_block`: the first fenced `lisp` block stripped,
falling back to the whole text stripped. -/
def extractCodeBlock (s : Str) : Str :=
  match codeBlockMatch s with
  | some g => pyStrip g
  | none => pyStrip s

/-- Model of `_extract_comments_block`'s regex for a fenced `comments`
block. -/
def commentsBlockMatch (s : Str) : Option Str :=
  match findSub ("```comments\n".data) (lowerL s) with
  | none => none
  | some i =>
    match findSubFrom ("\n```".data) (lowerL s) (i + 12) with
    | none => none
    | some j => some ((s.drop (i + 12)).take (j - (i + 12)))

/-- The fixed placeholder `_extract_comments_block` substitutes when no
comments block is present. -/
def commentsPlaceholder : Str := "No explanations provided".data

/-- Model of `_extract_comments_block`: the first fenced `comments` block
stripped, else the placeholder. -/
def extractCommentsBlock (s : Str) : Str :=
  match commentsBlockMatch s with
  | some g => pyStrip g
  | none => commentsPlaceholder

/-- Model of the `<think>...</think>` alternative of `_extract_think_block`. -/
def thinkAngleMatch (s : Str) : Option Str :=
  match findSub ("<think>".data) (lowerL s) with
  | none => none
  | some i =>
    match findSubFrom ("</think>".data) (lowerL s) (i + 7) with
    | none => none
    | some j => some ((s.drop (i + 7)).take (j - (i + 7)))

/-- Model of the fenced ```think alternative of `_extract_think_block`. -/
def thinkFencedMatch (s : Str) : Option Str :=
  match findSub ("```think\n".data) (lowerL s) with
  | none => none
  | some i =>
    match findSubFrom ("\n```".data) (lowerL s) (i + 9) with
    | none => none
    | some j => some ((s.drop (i + 9)).take (j - (i + 9)))

/-- Model of `_extract_think_block`: angle-delimited region first, fenced
block second, `none` when absent. -/
def extractThinkBlock (s : Str) : Option Str :=
  match thinkAngleMatch s with
  | some g => some (pyStrip g)
  | none =>
    match thinkFencedMatch s with
    | some g => some (pyStrip g)
    | none => none

/-! ### The Document Segmenter -/

/-- Index of the last newline in a character run (the backtracking target of
the greedy whitespace loop of the separator pattern). -/
def lastNewlineIdx : Str → Option Nat
  | [] => none
  | c :: rest =>
    match lastNewlineIdx rest with
    | some k => some (k + 1)
    | none => if c = '\n' then some 0 else none

/-- Leftmost match of `re.split`'s separator pattern (a newline, a greedy
whitespace run backtracked so that its last character is a final newline),
as (start index, match length). -/
def findBlankSep : Str → Option (Nat × Nat)
  | [] => none
  | c :: rest =>
    if c = '\n' then
      match lastNewlineIdx (rest.takeWhile pyIsSpace) with
      | some k => some (0, k + 2)
      | none => (findBlankSep rest).map (fun p => (p.1 + 1, p.2))
    else (findBlankSep rest).map (fun p => (p.1 + 1, p.2))

/-- Model of `re.split(r'\n\s*\n', s)`, fuelled by the string length (each
separator consumes at least two characters, so the fuel never runs out). -/
def reSplitBlankAux : Nat → Str → List Str
  | 0, s => [s]
  | fuel + 1, s =>
    match findBlankSep s with
    | none => [s]
    | some (i, l) => s.take i :: reSplitBlankAux fuel (s.drop (i + l))

/-- Split a text on blank-line separators, per `re.split(r'\n\s*\n', text)`. -/
def reSplitBlank (s : Str) : List Str := reSplitBlankAux s.length s

/-- First `)` reachable without crossing a newline (`.` does not match `\n`
in the un-flagged pattern `\(.*?\)`). -/
def findCloseNoNl : Str → Option Nat
  | [] => none
  | c :: rest =>
    if c = ')' then some 0
    else if c = '\n' then none
    else (findCloseNoNl rest).map (· + 1)

/-- Model of `re.sub(r'\(.*?\)', '', s)` (no DOTALL): remove every leftmost
lazily-closed parenthesized span that does not cross a newline. -/
def subParensAux : Nat → Str → Str
  | 0, s => s
  | _ + 1, [] => []
  | fuel + 1, c :: rest =>
    if c = '(' then
      match findCloseNoNl rest with
      | some j => subParensAux fuel (rest.drop (j + 1))
      | none => c :: subParensAux fuel rest
    else c :: subParensAux fuel rest

/-- Remove parenthesized code-like spans, per the context computation of
`_extract_code_context_pairs` and the chunk pass of `_process_doc_content`. -/
def subParens (s : Str) : Str := subParensAux s.length s

/-- Python `str.split()` with no argument: whitespace-separated words. -/
def pyWordsAux : Nat → Str → List Str
  | 0, _ => []
  | fuel + 1, s =>
    match s.dropWhile pyIsSpace with
    | [] => []
    | c :: rest =>
      ((c :: rest).takeWhile (fun d => !(pyIsSpace d))) ::
        pyWordsAux fuel ((c :: rest).dropWhile (fun d => !(pyIsSpace d)))

/-- Python `str.split()`. -/
def pyWords (s : Str) : List Str := pyWordsAux s.length s

/-- Python `' '.join(ws)`. -/
def joinSpace (ws : List Str) : Str := List.intercalate [' '] ws

/-- The lazy close of the DOTALL span `(\(.*?\))(?=\n|$)`: first `)` whose
successor is a newline or the end of the section. -/
def parenSpanClose : Str → Option Nat
  | [] => none
  | c :: rest =>
    if c = ')' && (rest.isEmpty || rest.head? == some '\n') then some 0
    else (parenSpanClose rest).map (· + 1)

/-- Match `(\(.*?\))(?=\n|$)` at the head of `t`: the code span including its
parentheses, and the remaining text after it. -/
def parenParse : Str → Option (Str × Str)
  | '(' :: rest =>
    match parenSpanClose rest with
    | some j => some ('(' :: rest.take (j + 1), rest.drop (j + 1))
    | none => none
  | _ => none

/-- Consume the optional label `(?:;+\s*Example:?\s*)?` at the head of `t`,
returning the remainder when the label is present and well formed. -/
def exampleLabelParse (t : Str) : Option Str :=
  let semis := t.takeWhile (fun c => c = ';')
  if semis.isEmpty then none
  else
    let t1 := (t.drop semis.length).dropWhile pyIsSpace
    if "Example".data.isPrefixOf t1 then
      let t2 := t1.drop 7
      let t3 := if t2.head? == some ':' then t2.drop 1 else t2
      some (t3.dropWhile pyIsSpace)
    else none

/-- The body of the findall pattern after its `(?:^|\n)` anchor: an optional
`Example` label then a parenthesized span with its end-of-line lookahead;
when the label parses but no span follows, the regex backtracks to the
label-free alternative. -/
def codeSpanAt (t : Str) : Option (Str × Str) :=
  match exampleLabelParse t with
  | some t' =>
    match parenParse t' with
    | some r => some r
    | none => parenParse t
  | none => parenParse t

/-- Scanner of `re.findall(r'(?:^|\n)(?:;+\s*Example:?\s*)?(\(.*?\))(?=\n|$)',
sec, DOTALL)`: leftmost non-overlapping matches, each anchored at the start
of the section or just after a newline. -/
def scanCodeAux : Nat → Str → Bool → List Str
  | 0, _, _ => []
  | fuel + 1, s, first =>
    let att : Option (Str × Str) :=
      if first then
        match codeSpanAt s with
        | some r => some r
        | none =>
          match s with
          | '\n' :: rest => codeSpanAt rest
          | _ => none
      else
        match s with
        | '\n' :: rest => codeSpanAt rest
        | _ => none
    match att with
    | some (g, rest) => g :: scanCodeAux fuel rest false
    | none =>
      match s with
      | [] => []
      | _ :: rest => scanCodeAux fuel rest false

/-- All code-like spans found in one section. -/
def findallCodeSpans (s : Str) : List Str := scanCodeAux (s.length + 1) s true

/-- The pairs one section contributes in `_extract_code_context_pairs`: each
non-blank code span, stripped, paired with the section's de-parenthesized,
whitespace-collapsed context. -/
def sectionPairs (sec : Str) : List (Str × Str) :=
  let blocks := findallCodeSpans sec
  if blocks.isEmpty then []
  else
    let ctx := pyStrip (joinSpace (pyWords (subParens sec)))
    blocks.filterMap (fun code =>
      if (pyStrip code).isEmpty then none else some (pyStrip code, ctx))

/-- Model of `_extract_code_context_pairs`. -/
def extractCodeContextPairs (text : Str) : List (Str × Str) :=
  ((reSplitBlank text).map sectionPairs).flatten

/-- Model of `_process_doc_content`: the (code, context) pairs and the
standalone prose chunks (blank-line separated, parenthesis-free, kept when
non-blank with more than five words, and stripped). -/
def processDocContent (content : Str) : List (Str × Str) × List Str :=
  (extractCodeContextPairs content,
    ((reSplitBlank (subParens content)).filter
      (fun ch => !(pyStrip ch).isEmpty && decide (5 < (pyWords ch).length))).map pyStrip)

/-! ### Claim C4: output parsing -/

theorem lowerL_thinkOpen : lowerL "<think>".data = "<think>".data := by decide

theorem lowerL_thinkClose : lowerL "</think>".data = "</think>".data := by decide

theorem thinkOpen_length : ("<think>".data : Str).length = 7 := by decide

theorem extractThink_first_region (a z b : Str)
    (h1 : ∀ k, k < a.length →
      ¬("<think>".data.isPrefixOf
          ((lowerL (a ++ "<think>".data ++ (z ++ "</think>".data ++ b))).drop k) = true))
    (h2 : ∀ k, k < z.length →
      ¬("</think>".data.isPrefixOf ((lowerL z ++ ("</think>".data ++ lowerL b)).drop k) = true)) :
    extractThinkBlock (a ++ "<think>".data ++ (z ++ "</think>".data ++ b))
      = some (pyStrip z) := by
  have hsplit : lowerL (a ++ "<think>".data ++ (z ++ "</think>".data ++ b))
      = lowerL a ++ ("<think>".data ++ (lowerL z ++ ("</think>".data ++ lowerL b))) := by
    simp only [lowerL, List.map_append, List.append_assoc]
    rw [show List.map pyLower "<think>".data = "<think>".data from lowerL_thinkOpen,
        show List.map pyLower "</think>".data = "</think>".data from lowerL_thinkClose]
  have hlena : (lowerL a).length = a.length := List.length_map _ _
  have hfind1 : findSub "<think>".data
      (lowerL (a ++ "<think>".data ++ (z ++ "</think>".data ++ b))) = some a.length := by
    apply findSub_some
    · rw [hsplit, List.drop_left' hlena]
      exact List.isPrefixOf_iff_prefix.mpr (List.prefix_append _ _)
    · exact h1
  have hdrop2 : (lowerL (a ++ "<think>".data ++ (z ++ "</think>".data ++ b))).drop (a.length + 7)
      = lowerL z ++ ("</think>".data ++ lowerL b) := by
    rw [hsplit,
      show lowerL a ++ ("<think>".data ++ (lowerL z ++ ("</think>".data ++ lowerL b)))
        = (lowerL a ++ "<think>".data) ++ (lowerL z ++ ("</think>".data ++ lowerL b)) by
          simp [List.append_assoc]]
    exact List.drop_left' (by simp [hlena, thinkOpen_length])
  have hfind2 : findSubFrom "</think>".data
      (lowerL (a ++ "<think>".data ++ (z ++ "</think>".data ++ b))) (a.length + 7)
      = some (z.length + (a.length + 7)) := by
    unfold findSubFrom
    rw [hdrop2]
    have hz : findSub "</think>".data (lowerL z ++ ("</think>".data ++ lowerL b))
        = some z.length := by
      apply findSub_some
      · rw [List.drop_left' (show (lowerL z).length = z.length from List.length_map _ _)]
        exact List.isPrefixOf_iff_prefix.mpr (List.prefix_append _ _)
      · exact h2
    rw [hz]
    rfl
  have hdropT : (a ++ "<think>".data ++ (z ++ "</think>".data ++ b)).drop (a.length + 7)
      = z ++ ("</think>".data ++ b) := by
    rw [show a ++ "<think>".data ++ (z ++ "</think>".data ++ b)
        = (a ++ "<think>".data) ++ (z ++ ("</think>".data ++ b)) by simp [List.append_assoc]]
    exact List.drop_left' (by simp [thinkOpen_length])
  have hmatch : thinkAngleMatch (a ++ "<think>".data ++ (z ++ "</think>".data ++ b))
      = some z := by
    simp only [thinkAngleMatch, hfind1, hfind2, Nat.add_sub_cancel, hdropT, List.take_left]
  unfold extractThinkBlock
  rw [hmatch]

/-- Claim C4 counterexample: on the response
"```code\nX\n```\n```comments\nY\n```" the parser does not yield code `X`
(the code regex looks for a block labelled `lisp`, finds none, and falls
back to the entire response), so the claimed triple `(X, Y, none)` is not
produced. -/
theorem c4_counterexample :
    ¬ (extractCodeBlock ("```code\nX\n```\n```comments\nY\n```".data) = "X".data
       ∧ extractCommentsBlock ("```code\nX\n```\n```comments\nY\n```".data) = "Y".data
       ∧ extractThinkBlock ("```code\nX\n```\n```comments\nY\n```".data) = none) := by
  decide

/-- Claim C4 (amended): for the model response
"```lisp\nX\n```\n```comments\nY\n```" the parser yields code `X`, comments
`Y`, and no reasoning; for any response lacking a fenced comments block the
comments result is the fixed placeholder string; for any response whose
first `<think>` region is `<think>Z</think>` the extracted reasoning equals
`Z` stripped of surrounding whitespace; and when no fenced `lisp` code block
is found the entire response text, stripped, is taken as the code. -/
theorem c4_output_parsing_amended
    (s : Str) (hcm : commentsBlockMatch s = none)
    (s' : Str) (hcb : codeBlockMatch s' = none)
    (a z b : Str)
    (h1 : ∀ k, k < a.length →
      ¬("<think>".data.isPrefixOf
          ((lowerL (a ++ "<think>".data ++ (z ++ "</think>".data ++ b))).drop k) = true))
    (h2 : ∀ k, k < z.length →
      ¬("</think>".data.isPrefixOf ((lowerL z ++ ("</think>".data ++ lowerL b)).drop k) = true)) :
    (extractCodeBlock ("```lisp\nX\n```\n```comments\nY\n```".data) = "X".data
      ∧ extractCommentsBlock ("```lisp\nX\n```\n```comments\nY\n```".data) = "Y".data
      ∧ extractThinkBlock ("```lisp\nX\n```\n```comments\nY\n```".data) = none)
    ∧ extractCommentsBlock s = commentsPlaceholder
    ∧ extractCodeBlock s' = pyStrip s'
    ∧ extractThinkBlock (a ++ "<think>".data ++ (z ++ "</think>".data ++ b))
        = some (pyStrip z) := by
  refine ⟨by decide, ?_, ?_, extractThink_first_region a z b h1 h2⟩
  · unfold extractCommentsBlock
    rw [hcm]
  · unfold extractCodeBlock
    rw [hcb]

/-- Concrete instantiation of the amended C4 theorem: a comments-free
response, a code-fence-free response, and a response whose reasoning region
is " Z " surrounded by other text. -/
theorem c4_output_parsing_amended_witness :
    (extractCodeBlock ("```lisp\nX\n```\n```comments\nY\n```".data) = "X".data
      ∧ extractCommentsBlock ("```lisp\nX\n```\n```comments\nY\n```".data) = "Y".data
      ∧ extractThinkBlock ("```lisp\nX\n```\n```comments\nY\n```".data) = none)
    ∧ extractCommentsBlock "just text".data = commentsPlaceholder
    ∧ extractCodeBlock "  plain answer ".data = pyStrip "  plain answer ".data
    ∧ extractThinkBlock ("Answer: ".data ++ "<think>".data ++
        (" Z ".data ++ "</think>".data ++ " tail".data)) = some (pyStrip " Z ".data) :=
  c4_output_parsing_amended "just text".data (by decide) "  plain answer ".data (by decide)
    "Answer: ".data " Z ".data " tail".data (by decide) (by decide)

/-! ### Claim C5: the segmenter example -/

/-- The example input of the specification's segmenter property. -/
def segmenterExampleInput : Str := "Does foo. (foo 1 2)\n\nbar baz qux quux corge".data

/-- Claim C5 counterexample: on the example input the segmenter yields
neither the claimed pair (the parenthesized span is not at the start of a
line, so the anchored findall pattern misses it) nor the claimed standalone
chunk (its word count is exactly 5, which does not exceed 5). -/
theorem c5_counterexample :
    ¬ (processDocContent segmenterExampleInput
         = ([("(foo 1 2)".data, "Does foo.".data)], ["bar baz qux quux corge".data])
       ∧ 5 < (pyWords "bar baz qux quux corge".data).length) := by
  decide

/-- Claim C5 (amended): on the input "Does foo. (foo 1 2)\n\nbar baz qux
quux corge", segmentation yields no (code, context) pair and no standalone
chunk; the candidate chunk "bar baz qux quux corge" has exactly 5 words, so
it fails the more-than-five-words filter. -/
theorem c5_segmenter_example :
    processDocContent segmenterExampleInput = ([], [])
    ∧ (pyWords "bar baz qux quux corge".data).length = 5 := by
  decide

/-! ### Data model: embedding stores and their persistence -/

/-- Embedding vectors are rows of rationals.  The numeric values never matter
to the claims, and Python's `json` round-trips `float64` values exactly, so
an exact numeric field is a faithful model of the persistence layer. -/
abbrev Vec := List ℚ

/-- The source/target context database dictionaries of `LispTranslationRAG`. -/
structure CtxDb where
  embeddings : List Vec
  samples : List (Str × Str)
  text_embeddings : List Vec
  text_chunks : List Str
deriving DecidableEq

/-- A context database as initialized in the constructor: zero items and
zero-row vector tables. -/
def emptyCtxDb : CtxDb := ⟨[], [], [], []⟩

/-- The translation-history database dictionary (`done_db`). -/
structure DoneDb where
  embeddings : List Vec
  samples : List Str
  text_embeddings : List Vec
  text_chunks : List Str
  filepaths : List Str
deriving DecidableEq

/-- `done_db` as initialized in the constructor. -/
def initDoneDb : DoneDb := ⟨[], [], [], [], []⟩

/-- The JSON document `_save_db` writes for a context database. -/
structure SavedCtx where
  embeddings : List Vec
  samples : List (Str × Str)
  text_embeddings : List Vec
  text_chunks : List Str
deriving DecidableEq

/-- The JSON document `_save_done_db` writes (it omits the text tables). -/
structure SavedDone where
  embeddings : List Vec
  samples : List Str
  filepaths : List Str
deriving DecidableEq

/-- Model of `_save_db`: serialize both vector tables and both item lists. -/
def saveDb (db : CtxDb) : SavedCtx :=
  ⟨db.embeddings, db.samples, db.text_embeddings, db.text_chunks⟩

/-- Model of `_save_done_db`. -/
def saveDoneDb (d : DoneDb) : SavedDone := ⟨d.embeddings, d.samples, d.filepaths⟩

/-- `numpy` size of a nested-list array: the total number of elements. -/
def npSize (rows : List Vec) : Nat := (rows.map List.length).sum

/-- The load-time shape fix of `_load_db` / `_load_done_db`: a vector table
with zero elements is replaced by the empty 0×768 table. -/
def shapeFix (rows : List Vec) : List Vec := if npSize rows = 0 then [] else rows

/-- Model of `_load_db` applied to parsed JSON data. -/
def loadDbData (d : SavedCtx) : CtxDb :=
  ⟨shapeFix d.embeddings, d.samples, shapeFix d.text_embeddings, d.text_chunks⟩

/-- Model of `_load_db`: `none` models an unreadable or unparseable file, in
which case the function reports "no store". -/
def loadDb (file : Option SavedCtx) : Option CtxDb := file.map loadDbData

/-- Model of `_load_done_db` applied to parsed JSON data: the embeddings,
samples and filepaths fields are replaced; the text tables of the in-memory
`done_db` are untouched. -/
def loadDoneDbData (cur : DoneDb) (d : SavedDone) : DoneDb :=
  { cur with
    embeddings := shapeFix d.embeddings
    samples := d.samples
    filepaths := d.filepaths }

/-! ### The environment: external services and the file system -/

/-- All effects of the program, modelled as oracles: file existence and
directory listings, text extraction, the embedding model (`none` models an
exception raised by `encode`), raw file reads, the generation backend in
blocking and streaming form (`Except.error` models a raised exception),
artifact-write success, the content hash, and the persisted files present
at startup. -/
structure Env where
  pathExists : Str → Bool
  isdir : Str → Bool
  isfile : Str → Bool
  listSupported : Str → List Str
  extract : Str → Str
  enc : Str → Option Vec
  fs : Str → Option Str
  gen : Str → Except Str Str
  genStream : Str → Except Str (List Str)
  writeOk : Str → Bool
  md5 : Str → Str
  dbFile : Str → Option SavedCtx
  doneFile : Option SavedDone
  ledgerFile : List Str
  listLisp : Str → List Str

/-- Python `os.path.basename`. -/
def pyBasename (p : Str) : Str := (p.reverse.takeWhile (fun c => c ≠ '/')).reverse

/-- The source-marker header `_process_directory` puts before each file's
content. -/
def contentHeader (f : Str) : Str :=
  "\n--- Content from ".data ++ pyBasename f ++ " ---\n".data

/-- Model of `_process_directory`: empty on a missing directory; otherwise
the newline-join of header/content pairs for each supported file with
non-blank content, plus the path's own content when it is itself a file. -/
def processDirectory (env : Env) (dirPath : Str) : Str :=
  if !env.pathExists dirPath then []
  else
    let fileParts := ((env.listSupported dirPath).map (fun f =>
      let c := env.extract f
      if (pyStrip c).isEmpty then [] else [contentHeader f, c])).flatten
    let selfPart :=
      if env.isfile dirPath then
        let c := env.extract dirPath
        if (pyStrip c).isEmpty then [] else [c]
      else []
    List.intercalate ['\n'] (fileParts ++ selfPart)

/-- One pair-processing step of `_build_enhanced_database`: embed the code
and the context; on success append the code vector and the pair to the main
tables and the context vector and text to the text tables; an embedding
failure skips the pair entirely. -/
def buildStep (env : Env) (db : CtxDb) (pair : Str × Str) : CtxDb :=
  match env.enc pair.1, env.enc pair.2 with
  | some ce, some xe =>
    { db with
      embeddings := db.embeddings ++ [ce]
      samples := db.samples ++ [pair]
      text_embeddings := db.text_embeddings ++ [xe]
      text_chunks := db.text_chunks ++ [pair.2] }
  | _, _ => db

/-- One chunk-processing step of `_build_enhanced_database`: embed the chunk
and append to the text tables only; a failure skips the chunk. -/
def chunkStep (env : Env) (db : CtxDb) (ch : Str) : CtxDb :=
  match env.enc ch with
  | some e =>
    { db with
      text_embeddings := db.text_embeddings ++ [e]
      text_chunks := db.text_chunks ++ [ch] }
  | none => db

/-- Model of `_build_enhanced_database`: clear the database, extract content
from the path (directory walk or single file), return the cleared database
when the content is blank, otherwise segment and process every pair and
chunk. -/
def buildEnhancedDatabase (env : Env) (docPath : Str) : CtxDb :=
  let content := if env.isdir docPath then processDirectory env docPath else env.extract docPath
  if (pyStrip content).isEmpty then emptyCtxDb
  else
    let pc := processDocContent content
    (pc.2).foldl (chunkStep env) ((pc.1).foldl (buildStep env) emptyCtxDb)

/-- Model of `_update_done_db`: normalize the source, embed it; on success
append the vector, the normalized snippet and the file path; an embedding
failure leaves the database unchanged. -/
def updateDoneDb (env : Env) (done : DoneDb) (filepath source : Str) : DoneDb :=
  let pc := preprocessCode source
  match env.enc pc with
  | none => done
  | some v =>
    { done with
      embeddings := done.embeddings ++ [v]
      samples := done.samples ++ [pc]
      filepaths := done.filepaths ++ [filepath] }

/-! ### Claims C2 and C6: index alignment and round-trip persistence -/

/-- Index alignment for a context store: as many samples as embedding rows,
and as many text chunks as text-embedding rows. -/
def ctxAligned (db : CtxDb) : Prop :=
  db.samples.length = db.embeddings.length
    ∧ db.text_chunks.length = db.text_embeddings.length

/-- Index alignment for the history store: as many samples as embedding rows
and as many file paths. -/
def doneAligned (d : DoneDb) : Prop :=
  d.samples.length = d.embeddings.length ∧ d.samples.length = d.filepaths.length

theorem foldl_preserves {α β : Type} (P : β → Prop) (f : β → α → β)
    (hf : ∀ b a, P b → P (f b a)) : ∀ (l : List α) (b : β), P b → P (l.foldl f b)
  | [], _, hb => hb
  | a :: l, b, hb => foldl_preserves P f hf l (f b a) (hf b a hb)

theorem ctxAligned_buildStep (env : Env) (db : CtxDb) (pair : Str × Str)
    (h : ctxAligned db) : ctxAligned (buildStep env db pair) := by
  rcases h with ⟨h1, h2⟩
  unfold buildStep
  cases env.enc pair.1 <;> cases env.enc pair.2 <;>
    simp [ctxAligned, h1, h2]

theorem ctxAligned_chunkStep (env : Env) (db : CtxDb) (ch : Str)
    (h : ctxAligned db) : ctxAligned (chunkStep env db ch) := by
  rcases h with ⟨h1, h2⟩
  unfold chunkStep
  cases env.enc ch <;> simp [ctxAligned, h1, h2]

theorem ctxAligned_build (env : Env) (docPath : Str) :
    ctxAligned (buildEnhancedDatabase env docPath) := by
  have hfold : ∀ (prs : List (Str × Str)) (chunks : List Str),
      ctxAligned (List.foldl (chunkStep env)
        (List.foldl (buildStep env) emptyCtxDb prs) chunks) :=
    fun prs chunks => foldl_preserves ctxAligned (chunkStep env) (ctxAligned_chunkStep env) _ _
      (foldl_preserves ctxAligned (buildStep env) (ctxAligned_buildStep env) _ _ ⟨rfl, rfl⟩)
  simp only [buildEnhancedDatabase]
  split <;> (split
             · exact ⟨rfl, rfl⟩
             · exact hfold _ _)

theorem doneAligned_update (env : Env) (done : DoneDb) (fp src : Str)
    (h : doneAligned done) : doneAligned (updateDoneDb env done fp src) := by
  rcases h with ⟨h1, h2⟩
  simp only [updateDoneDb]
  cases henc : env.enc (preprocessCode src) <;> simp [henc, doneAligned, h1, h2] <;> omega

theorem shapeFix_eq_self (rows : List Vec) (h : ∀ r ∈ rows, r.length = 768) :
    shapeFix rows = rows := by
  unfold shapeFix
  split
  · rename_i hz
    cases rows with
    | nil => rfl
    | cons r rest =>
      exfalso
      have hr : r.length = 768 := h r (List.mem_cons_self _ _)
      unfold npSize at hz
      simp [hr] at hz
  · rfl

theorem ctxDb_roundtrip (db : CtxDb) (h1 : ∀ r ∈ db.embeddings, r.length = 768)
    (h2 : ∀ r ∈ db.text_embeddings, r.length = 768) :
    loadDb (some (saveDb db)) = some db := by
  have he := shapeFix_eq_self db.embeddings h1
  have ht := shapeFix_eq_self db.text_embeddings h2
  cases db with
  | mk e s te tc =>
    simp only at he ht
    simp [loadDb, loadDbData, saveDb, he, ht]

theorem doneDb_roundtrip (cur d : DoneDb) (h : ∀ r ∈ d.embeddings, r.length = 768) :
    loadDoneDbData cur (saveDoneDb d)
      = { cur with embeddings := d.embeddings, samples := d.samples, filepaths := d.filepaths } := by
  unfold loadDoneDbData saveDoneDb
  rw [shapeFix_eq_self _ h]

/-- Claim C2: for every store, at every observation point — after
construction, after a full rebuild, after loading persisted JSON (JSON
written by the program's own save routines, whose vector rows are 768 wide),
and after every single-item append — the number of items equals the number
of vector rows, and for the history store also the number of file paths. -/
theorem c2_index_alignment :
    (ctxAligned emptyCtxDb ∧ doneAligned initDoneDb)
    ∧ (∀ env docPath, ctxAligned (buildEnhancedDatabase env docPath))
    ∧ (∀ db db' : CtxDb, ctxAligned db →
        (∀ r ∈ db.embeddings, r.length = 768) →
        (∀ r ∈ db.text_embeddings, r.length = 768) →
        loadDb (some (saveDb db)) = some db' → ctxAligned db')
    ∧ (∀ cur d : DoneDb, doneAligned d → (∀ r ∈ d.embeddings, r.length = 768) →
        doneAligned (loadDoneDbData cur (saveDoneDb d)))
    ∧ (∀ env done fp src, doneAligned done →
        doneAligned (updateDoneDb env done fp src)) := by
  refine ⟨⟨⟨rfl, rfl⟩, ⟨rfl, rfl⟩⟩, ctxAligned_build, ?_, ?_, doneAligned_update⟩
  · intro db db' hal h1 h2 hload
    have := ctxDb_roundtrip db h1 h2
    rw [this] at hload
    cases hload
    exact hal
  · intro cur d hal h
    rw [doneDb_roundtrip cur d h]
    exact hal

/-- Claim C6: persisting a store to JSON and loading it back reproduces a
store with equal items and vectors (exactly equal in this model, since JSON
round-trips the numeric values), not the no-store result. -/
theorem c6_roundtrip_persistence (db : CtxDb)
    (h1 : ∀ r ∈ db.embeddings, r.length = 768)
    (h2 : ∀ r ∈ db.text_embeddings, r.length = 768) :
    loadDb (some (saveDb db)) = some db :=
  ctxDb_roundtrip db h1 h2

/-- A concrete environment used to instantiate theorems that carry
hypotheses: one source-docs directory with one text file, two input files
with byte-identical content, an embedding oracle that always succeeds, a
backend whose streamed fragments concatenate to its blocking response, and
writes that always succeed. -/
def envW : Env where
  pathExists := fun _ => true
  isdir := fun p => p = "docs".data
  isfile := fun _ => false
  listSupported := fun _ => ["docs/a.txt".data]
  extract := fun p =>
    if p = "docs/a.txt".data then "Intro line\n(f x)\nhas many more words here".data else []
  enc := fun _ => some [1]
  fs := fun p =>
    if p = "in/a.lisp".data then some "(f) ; c".data
    else if p = "in/b.lisp".data then some "(f) ; c".data else none
  gen := fun _ => Except.ok "```lisp\n(g y)\n```\n```comments\nfine\n```".data
  genStream := fun _ =>
    Except.ok ["```lisp\n(g y)\n```\n".data, [], "```comments\nfine\n```".data]
  writeOk := fun _ => true
  md5 := fun s => s
  dbFile := fun _ => none
  doneFile := none
  ledgerFile := []
  listLisp := fun _ => ["in/a.lisp".data, "in/b.lisp".data]

/-- A concrete history store with one aligned entry and 768-wide rows. -/
def doneW : DoneDb :=
  ⟨[List.replicate 768 0], ["(f)".data], [], [], ["a.lisp".data]⟩

/-- A concrete context store with one aligned pair and 768-wide rows. -/
def ctxW : CtxDb :=
  ⟨[List.replicate 768 (0 : ℚ)], [("(f)".data, "use f".data)],
   [List.replicate 768 (1 : ℚ)], ["use f".data]⟩

/-- Concrete instantiation of the C2 alignment theorem: alignment after a
rebuild from the witness environment, after a history round trip, and after
a single-item append. -/
theorem c2_index_alignment_witness :
    ctxAligned (buildEnhancedDatabase envW "docs".data)
    ∧ doneAligned (loadDoneDbData initDoneDb (saveDoneDb doneW))
    ∧ doneAligned (updateDoneDb envW initDoneDb "in/a.lisp".data "(f) ; c".data) :=
  ⟨c2_index_alignment.2.1 envW "docs".data,
   c2_index_alignment.2.2.2.1 initDoneDb doneW ⟨rfl, rfl⟩
     (by intro r hr; simp only [doneW] at hr; rw [List.mem_singleton] at hr; subst hr; exact List.length_replicate _ _),
   c2_index_alignment.2.2.2.2 envW initDoneDb "in/a.lisp".data "(f) ; c".data ⟨rfl, rfl⟩⟩

/-- Concrete instantiation of the C6 round-trip theorem. -/
theorem c6_roundtrip_persistence_witness :
    loadDb (some (saveDb ctxW)) = some ctxW :=
  c6_roundtrip_persistence ctxW
    (by intro r hr; simp only [ctxW] at hr; rw [List.mem_singleton] at hr; subst hr; exact List.length_replicate _ _)
    (by intro r hr; simp only [ctxW] at hr; rw [List.mem_singleton] at hr; subst hr; exact List.length_replicate _ _)

/-! ### The prompt assembler -/

/-- The per-example template "Context: {context}\nCode: {code}" rendered. -/
def renderExample (code ctx : Str) : Str :=
  "Context: ".data ++ ctx ++ "\nCode: ".data ++ code

/-- Join rendered examples with a blank line, or the literal token for an
empty selection. -/
def orNone (xs : List Str) : Str :=
  if xs.isEmpty then "None".data else List.intercalate "\n\n".data xs

/-- Python `xs[-3:]` on a list. -/
def lastThree {α : Type} (xs : List α) : List α := xs.drop (xs.length - 3)

/-- Model of `_generate_contextual_prompt_with_langchain`: the fixed
instruction template around the first three source pairs, the first three
target pairs, and the last three history snippets. -/
def buildPrompt (srcDb trgDb : CtxDb) (done : DoneDb) (sourceCode : Str) : Str :=
  let srcBlock := orNone ((srcDb.samples.take 3).map (fun pr => renderExample pr.1 pr.2))
  let trgBlock := orNone ((trgDb.samples.take 3).map (fun pr => renderExample pr.1 pr.2))
  let prevBlock := orNone (if done.samples.isEmpty then [] else lastThree done.samples)
  "Translate this Lisp code to modern Common Lisp while preserving all functionality.\n".data
  ++ "The first knowledge source provided shall help you understand what this lisp code actually does, ".data
  ++ "the second language source describes the target implementation, so adhere to it in your answers. ".data
  ++ "The third knowledge source represents what you have done so far: You must always remain consistent to it!\n\n".data
  ++ "While translating this Common Lisp code, always proceed step by step: ".data
  ++ "What is the expected input? What does the source code you shall translate do? ".data
  ++ "How do you preserve all its functionality using the target implementation?\n\n".data
  ++ "Source Examples:\n".data ++ srcBlock
  ++ "\n\nTarget Examples:\n".data ++ trgBlock
  ++ "\n\nPrevious Translations:\n".data ++ prevBlock
  ++ "\n\nCode to translate:\n".data ++ sourceCode
  ++ "\n\nProvide the translated code in a ```lisp block and explanations in a ```comments block. ".data
  ++ "If you include chain-of-thought or hidden reasoning, wrap it in <think>...</think> (or a ```think block).".data

/-! ### The Translation Engine -/

/-- Python `os.path.splitext(p)[0]`: the path without its last extension;
a dot-only basename or a dot-free basename is returned unchanged. -/
def splitextBase (p : Str) : Str :=
  let r := p.reverse
  let pre := r.takeWhile (fun c => c ≠ '.' && c ≠ '/')
  match r.drop pre.length with
  | '.' :: rest2 =>
    if (rest2.takeWhile (fun c => c ≠ '/')).any (fun c => c ≠ '.') then rest2.reverse
    else p
  | _ => p

/-- The in-memory translation cache: content hash to (code, comments,
reasoning). -/
abbrev Cache := List (Str × (Str × Str × Option Str))

/-- Python dictionary lookup on the cache. -/
def cacheFind (h : Str) : Cache → Option (Str × Str × Option Str)
  | [] => none
  | (k, v) :: rest => if k = h then some v else cacheFind h rest

/-- Python truthiness of the optional reasoning text (`if think:`): present
and non-empty. -/
def optTruthy (t : Option Str) : Bool :=
  match t with
  | some s => !s.isEmpty
  | none => false

/-- The sibling artifact files `translate_file` writes: `.autot` with the
code, `.comment` with the comments, and `.think` with the reasoning only
when the reasoning is truthy. -/
def artifactWrites (base : Str) (code comments : Str) (think : Option Str) :
    List (Str × Str) :=
  [(base ++ ".autot".data, code), (base ++ ".comment".data, comments)]
    ++ (if optTruthy think then [(base ++ ".think".data, think.getD [])] else [])

/-- Attempt a sequence of file writes in order; the first failing write
raises, losing the rest: the result is the successfully written files and
the error, if any. -/
def doWrites (env : Env) : List (Str × Str) → List (Str × Str) × Option Str
  | [] => ([], none)
  | (p, c) :: rest =>
    if env.writeOk p then
      let r := doWrites env rest
      ((p, c) :: r.1, r.2)
    else ([], some ("write failed: ".data ++ p))

/-- The mutable state `translate_file` touches: the translation cache and
the history store. -/
structure TransState where
  cache : Cache
  done : DoneDb
deriving DecidableEq

deriving instance DecidableEq for Except

/-- The observable outcome of one `translate_file` call: the returned value
(`ok (code, comments)` or the caught exception's text), the state after the
call, the artifact files written, and the number of generation-backend
invocations made. -/
structure TFOut where
  res : Except Str (Str × Str)
  st : TransState
  writes : List (Str × Str)
  genCalls : Nat
deriving DecidableEq

/-- Accumulate streamed fragments in emission order (`full_output += part`;
empty parts contribute nothing either way). -/
def joinParts (parts : List Str) : Str := parts.foldl (fun acc pt => acc ++ pt) []

/-- The cache-replay branch of `translate_file`: write the cached artifacts
next to the input and return the cached pair; no backend call, no state
change; a write failure is caught and returned as the error result. -/
def tfHit (env : Env) (st : TransState) (base : Str) (v : Str × Str × Option Str) : TFOut :=
  match (doWrites env (artifactWrites base v.1 v.2.1 v.2.2)).2 with
  | some e => ⟨Except.error e, st, (doWrites env (artifactWrites base v.1 v.2.1 v.2.2)).1, 0⟩
  | none => ⟨Except.ok (v.1, v.2.1), st, (doWrites env (artifactWrites base v.1 v.2.1 v.2.2)).1, 0⟩

/-- The tail of the cache-miss branch once the full backend response is
available: parse the three blocks, write the artifacts, append the
normalized source to the history store, and populate the cache. -/
def tfGenerated (env : Env) (st : TransState) (p src full : Str) : TFOut :=
  match (doWrites env (artifactWrites (splitextBase p) (extractCodeBlock full)
      (extractCommentsBlock full) (extractThinkBlock full))).2 with
  | some e =>
    ⟨Except.error e, st,
     (doWrites env (artifactWrites (splitextBase p) (extractCodeBlock full)
        (extractCommentsBlock full) (extractThinkBlock full))).1, 1⟩
  | none =>
    ⟨Except.ok (extractCodeBlock full, extractCommentsBlock full),
     ⟨(env.md5 src, (extractCodeBlock full, extractCommentsBlock full, extractThinkBlock full)) :: st.cache,
      updateDoneDb env st.done p src⟩,
     (doWrites env (artifactWrites (splitextBase p) (extractCodeBlock full)
        (extractCommentsBlock full) (extractThinkBlock full))).1, 1⟩

/-- The cache-miss branch of `translate_file`: build the prompt and invoke
the backend, streamed (accumulating fragments) or blocking; a backend
exception is caught and returned as the error result. -/
def tfMiss (env : Env) (srcDb trgDb : CtxDb) (st : TransState) (p src : Str)
    (verbose : Bool) : TFOut :=
  match (if verbose
      then (env.genStream (buildPrompt srcDb trgDb st.done src)).map joinParts
      else env.gen (buildPrompt srcDb trgDb st.done src)) with
  | Except.error e => ⟨Except.error e, st, [], 1⟩
  | Except.ok full => tfGenerated env st p src full

/-- Model of `translate_file`: read the source, hash it, replay from the
cache when possible (no backend call); otherwise generate.  Any failure
(read, backend, write) yields `Except.error` and leaves the state
unchanged. -/
def translateFile (env : Env) (srcDb trgDb : CtxDb) (st : TransState)
    (inputPath : Str) (verbose : Bool) : TFOut :=
  match env.fs inputPath with
  | none => ⟨Except.error ("read failed: ".data ++ inputPath), st, [], 0⟩
  | some src =>
    match cacheFind (env.md5 src) st.cache with
    | some v => tfHit env st (splitextBase inputPath) v
    | none => tfMiss env srcDb trgDb st inputPath src verbose

/-! ### The Run Orchestrator -/

/-- Per-file events of one directory run: a file skipped because it is in
the ledger, or a file handed to the Translation Engine with its result and
whether its path was appended to the ledger. -/
inductive DirEvent where
  | skipped (p : Str)
  | translated (p : Str) (res : Except Str (Str × Str)) (appended : Bool)
deriving DecidableEq

/-- The outcome of a directory run: its per-file events, the final ledger,
and the final engine state. -/
structure DirOut where
  events : List DirEvent
  ledger : List Str
  st : TransState
deriving DecidableEq

/-- Python truthiness of the returned code (`if translated:`). -/
def truthyCode (r : Except Str (Str × Str)) : Bool :=
  match r with
  | Except.ok (c, _) => !c.isEmpty
  | Except.error _ => false

/-- The per-file loop of `translate_directory`: skip files already in the
ledger; otherwise translate, and append the path to the ledger (flushing
immediately) exactly when the returned code is truthy. -/
def translateFilesLoop (env : Env) (srcDb trgDb : CtxDb) :
    TransState → List Str → List Str → Bool → DirOut
  | st, ledger, [], _ => ⟨[], ledger, st⟩
  | st, ledger, p :: rest, verbose =>
    if p ∈ ledger then
      let out := translateFilesLoop env srcDb trgDb st ledger rest verbose
      ⟨DirEvent.skipped p :: out.events, out.ledger, out.st⟩
    else
      let r := translateFile env srcDb trgDb st p verbose
      let app := truthyCode r.res
      let ledger' := if app then ledger ++ [p] else ledger
      let out := translateFilesLoop env srcDb trgDb r.st ledger' rest verbose
      ⟨DirEvent.translated p r.res app :: out.events, out.ledger, out.st⟩

/-- Model of `translate_directory`: return early when the input directory is
missing; otherwise walk the discovered files against the persisted ledger. -/
def translateDirectory (env : Env) (srcDb trgDb : CtxDb) (st : TransState)
    (inputDir : Str) (verbose : Bool) : DirOut :=
  if !env.pathExists inputDir then ⟨[], env.ledgerFile, st⟩
  else translateFilesLoop env srcDb trgDb st env.ledgerFile (env.listLisp inputDir) verbose

/-- Model of `prepare_context_dbs` for one store: load the persisted file
when present and parseable, otherwise rebuild from the docs path. -/
def prepareOne (env : Env) (dbPath docsPath : Str) : CtxDb :=
  if env.pathExists dbPath then
    match env.dbFile dbPath with
    | some d => loadDbData d
    | none => buildEnhancedDatabase env docsPath
  else buildEnhancedDatabase env docsPath

/-- The observable outcome of a whole run. -/
structure RunOut where
  srcDb : CtxDb
  trgDb : CtxDb
  dir : DirOut
deriving DecidableEq

/-- Model of the `__main__` sequence: prepare both context stores, load the
history store if its file is present, then run the directory translation. -/
def runMain (env : Env) (srcDocs trgDocs srcDbPath trgDbPath inputDir : Str)
    (verbose : Bool) : RunOut :=
  let sdb := prepareOne env srcDbPath srcDocs
  let tdb := prepareOne env trgDbPath trgDocs
  let d0 : DoneDb :=
    match env.doneFile with
    | some dd => loadDoneDbData initDoneDb dd
    | none => initDoneDb
  ⟨sdb, tdb, translateDirectory env sdb tdb ⟨[], d0⟩ inputDir verbose⟩

/-! ### Engine lemmas: the write, hit, miss and generated phases -/

theorem doWrites_none_fst (env : Env) (l : List (Str × Str))
    (h : (doWrites env l).2 = none) : (doWrites env l).1 = l := by
  induction l with
  | nil => rfl
  | cons pc rest ih =>
    obtain ⟨p, c⟩ := pc
    by_cases hw : env.writeOk p
    · simp only [doWrites, hw, if_true] at h ⊢
      rw [ih h]
    · simp only [doWrites, hw] at h
      simp at h

theorem tfHit_state (env : Env) (st : TransState) (base : Str) (v : Str × Str × Option Str) :
    (tfHit env st base v).genCalls = 0 ∧ (tfHit env st base v).st = st := by
  unfold tfHit
  cases (doWrites env (artifactWrites base v.1 v.2.1 v.2.2)).2 <;> exact ⟨rfl, rfl⟩

theorem tfHit_success (env : Env) (st : TransState) (base : Str) (v : Str × Str × Option Str)
    (pr : Str × Str) (h : (tfHit env st base v).res = Except.ok pr) :
    pr = (v.1, v.2.1)
      ∧ (tfHit env st base v).writes = artifactWrites base v.1 v.2.1 v.2.2 := by
  revert h
  unfold tfHit
  cases hw : (doWrites env (artifactWrites base v.1 v.2.1 v.2.2)).2 with
  | some e => intro h; exact Except.noConfusion h
  | none =>
    intro h
    have hpr : (Except.ok (v.1, v.2.1) : Except Str (Str × Str)) = Except.ok pr := h
    cases hpr
    exact ⟨rfl, doWrites_none_fst env _ hw⟩

theorem tfGenerated_genCalls (env : Env) (st : TransState) (p src full : Str) :
    (tfGenerated env st p src full).genCalls = 1 := by
  unfold tfGenerated
  cases (doWrites env (artifactWrites (splitextBase p) (extractCodeBlock full)
      (extractCommentsBlock full) (extractThinkBlock full))).2 <;> rfl

theorem tfGenerated_success (env : Env) (st : TransState) (p src full : Str)
    (pr : Str × Str) (h : (tfGenerated env st p src full).res = Except.ok pr) :
    pr = (extractCodeBlock full, extractCommentsBlock full)
      ∧ (tfGenerated env st p src full).writes
          = artifactWrites (splitextBase p) pr.1 pr.2 (extractThinkBlock full)
      ∧ (tfGenerated env st p src full).st.cache
          = (env.md5 src, (pr.1, pr.2, extractThinkBlock full)) :: st.cache := by
  revert h
  unfold tfGenerated
  cases hw : (doWrites env (artifactWrites (splitextBase p) (extractCodeBlock full)
      (extractCommentsBlock full) (extractThinkBlock full))).2 with
  | some e => intro h; exact Except.noConfusion h
  | none =>
    intro h
    have hpr : (Except.ok (extractCodeBlock full, extractCommentsBlock full)
        : Except Str (Str × Str)) = Except.ok pr := h
    cases hpr
    exact ⟨rfl, doWrites_none_fst env _ hw, rfl⟩

theorem tfMiss_genCalls (env : Env) (srcDb trgDb : CtxDb) (st : TransState)
    (p src : Str) (verbose : Bool) :
    (tfMiss env srcDb trgDb st p src verbose).genCalls = 1 := by
  unfold tfMiss
  cases (if verbose
      then (env.genStream (buildPrompt srcDb trgDb st.done src)).map joinParts
      else env.gen (buildPrompt srcDb trgDb st.done src)) with
  | error e => rfl
  | ok full => exact tfGenerated_genCalls env st p src full

theorem tfMiss_success (env : Env) (srcDb trgDb : CtxDb) (st : TransState)
    (p src : Str) (verbose : Bool) (pr : Str × Str)
    (h : (tfMiss env srcDb trgDb st p src verbose).res = Except.ok pr) :
    ∃ t, cacheFind (env.md5 src) (tfMiss env srcDb trgDb st p src verbose).st.cache
          = some (pr.1, pr.2, t)
      ∧ (tfMiss env srcDb trgDb st p src verbose).writes
          = artifactWrites (splitextBase p) pr.1 pr.2 t := by
  revert h
  unfold tfMiss
  cases (if verbose
      then (env.genStream (buildPrompt srcDb trgDb st.done src)).map joinParts
      else env.gen (buildPrompt srcDb trgDb st.done src)) with
  | error e => intro h; exact Except.noConfusion h
  | ok full =>
    intro h
    obtain ⟨h1, h2, h3⟩ := tfGenerated_success env st p src full pr h
    show ∃ t, cacheFind (env.md5 src) (tfGenerated env st p src full).st.cache
          = some (pr.1, pr.2, t)
      ∧ (tfGenerated env st p src full).writes = artifactWrites (splitextBase p) pr.1 pr.2 t
    refine ⟨extractThinkBlock full, ?_, h2⟩
    rw [h3]
    simp [cacheFind]

theorem tfGenerated_error_state (env : Env) (st : TransState) (p src full e : Str)
    (h : (tfGenerated env st p src full).res = Except.error e) :
    (tfGenerated env st p src full).st = st := by
  revert h
  unfold tfGenerated
  cases (doWrites env (artifactWrites (splitextBase p) (extractCodeBlock full)
      (extractCommentsBlock full) (extractThinkBlock full))).2 with
  | some e2 => intro _; rfl
  | none => intro h; exact Except.noConfusion h

theorem tfMiss_error_state (env : Env) (srcDb trgDb : CtxDb) (st : TransState)
    (p src : Str) (v : Bool) (e : Str)
    (h : (tfMiss env srcDb trgDb st p src v).res = Except.error e) :
    (tfMiss env srcDb trgDb st p src v).st = st := by
  revert h
  unfold tfMiss
  cases (if v
      then (env.genStream (buildPrompt srcDb trgDb st.done src)).map joinParts
      else env.gen (buildPrompt srcDb trgDb st.done src)) with
  | error e2 => intro _; rfl
  | ok full => intro h; exact tfGenerated_error_state env st p src full e h

theorem artifactWrites_snd (b b' c m : Str) (t : Option Str) :
    (artifactWrites b c m t).map Prod.snd = (artifactWrites b' c m t).map Prod.snd := by
  unfold artifactWrites
  cases optTruthy t <;> simp

theorem translateFile_read_fail (env : Env) (srcDb trgDb : CtxDb) (st : TransState)
    (p : Str) (v : Bool) (hf : env.fs p = none) :
    translateFile env srcDb trgDb st p v
      = ⟨Except.error ("read failed: ".data ++ p), st, [], 0⟩ := by
  unfold translateFile
  rw [hf]

theorem translateFile_hit_eq (env : Env) (srcDb trgDb : CtxDb) (st : TransState)
    (p : Str) (v : Bool) (src : Str) (w : Str × Str × Option Str)
    (hf : env.fs p = some src) (hc : cacheFind (env.md5 src) st.cache = some w) :
    translateFile env srcDb trgDb st p v = tfHit env st (splitextBase p) w := by
  have h0 : translateFile env srcDb trgDb st p v
      = match cacheFind (env.md5 src) st.cache with
        | some w' => tfHit env st (splitextBase p) w'
        | none => tfMiss env srcDb trgDb st p src v := by
    unfold translateFile
    rw [hf]
  rw [h0, hc]

theorem translateFile_miss_eq (env : Env) (srcDb trgDb : CtxDb) (st : TransState)
    (p : Str) (v : Bool) (src : Str)
    (hf : env.fs p = some src) (hc : cacheFind (env.md5 src) st.cache = none) :
    translateFile env srcDb trgDb st p v = tfMiss env srcDb trgDb st p src v := by
  have h0 : translateFile env srcDb trgDb st p v
      = match cacheFind (env.md5 src) st.cache with
        | some w' => tfHit env st (splitextBase p) w'
        | none => tfMiss env srcDb trgDb st p src v := by
    unfold translateFile
    rw [hf]
  rw [h0, hc]

theorem translateFile_success (env : Env) (srcDb trgDb : CtxDb) (st : TransState)
    (p src : Str) (pr : Str × Str) (v : Bool)
    (hf : env.fs p = some src)
    (h : (translateFile env srcDb trgDb st p v).res = Except.ok pr) :
    ∃ t, cacheFind (env.md5 src) (translateFile env srcDb trgDb st p v).st.cache
          = some (pr.1, pr.2, t)
      ∧ (translateFile env srcDb trgDb st p v).writes
          = artifactWrites (splitextBase p) pr.1 pr.2 t
      ∧ (translateFile env srcDb trgDb st p v).genCalls ≤ 1 := by
  cases hc : cacheFind (env.md5 src) st.cache with
  | some w =>
    rw [translateFile_hit_eq env srcDb trgDb st p v src w hf hc] at h ⊢
    obtain ⟨hpr, hw⟩ := tfHit_success env st (splitextBase p) w pr h
    refine ⟨w.2.2, ?_, ?_, ?_⟩
    · rw [(tfHit_state env st (splitextBase p) w).2, hc, hpr]
    · rw [hw, hpr]
    · rw [(tfHit_state env st (splitextBase p) w).1]
      omega
  | none =>
    rw [translateFile_miss_eq env srcDb trgDb st p v src hf hc] at h ⊢
    obtain ⟨t, h1, h2⟩ := tfMiss_success env srcDb trgDb st p src v pr h
    exact ⟨t, h1, h2, by rw [tfMiss_genCalls]⟩

theorem tfMiss_stream_eq (env : Env) (srcDb trgDb : CtxDb) (st : TransState) (p src : Str)
    (hs : (env.genStream (buildPrompt srcDb trgDb st.done src)).map joinParts
          = env.gen (buildPrompt srcDb trgDb st.done src)) :
    tfMiss env srcDb trgDb st p src true = tfMiss env srcDb trgDb st p src false := by
  show (match (env.genStream (buildPrompt srcDb trgDb st.done src)).map joinParts with
    | Except.error e => (⟨Except.error e, st, [], 1⟩ : TFOut)
    | Except.ok full => tfGenerated env st p src full)
    = match env.gen (buildPrompt srcDb trgDb st.done src) with
    | Except.error e => (⟨Except.error e, st, [], 1⟩ : TFOut)
    | Except.ok full => tfGenerated env st p src full
  rw [hs]

/-! ### Claims C1, C8 and C9: caching and streaming of the engine -/

/-- Claim C1: within one run, given a first translation call that succeeded
on a file and a second call on a file with byte-identical content, the
second call makes no backend call (it replays the cached triple), the
backend is invoked at most once across the two calls, and when the second
call succeeds it returns the same (code, comments) pair and writes sibling
artifacts with identical contents. -/
theorem c1_cache_at_most_once (env : Env) (srcDb trgDb : CtxDb) (st0 : TransState)
    (p1 p2 src : Str) (v1 v2 : Bool) (pr : Str × Str)
    (hf1 : env.fs p1 = some src) (hf2 : env.fs p2 = some src)
    (h1 : (translateFile env srcDb trgDb st0 p1 v1).res = Except.ok pr) :
    (translateFile env srcDb trgDb (translateFile env srcDb trgDb st0 p1 v1).st p2 v2).genCalls = 0
    ∧ (translateFile env srcDb trgDb st0 p1 v1).genCalls
        + (translateFile env srcDb trgDb (translateFile env srcDb trgDb st0 p1 v1).st p2 v2).genCalls ≤ 1
    ∧ ∀ pr2, (translateFile env srcDb trgDb (translateFile env srcDb trgDb st0 p1 v1).st p2 v2).res
          = Except.ok pr2 →
        pr2 = pr
        ∧ (translateFile env srcDb trgDb (translateFile env srcDb trgDb st0 p1 v1).st p2 v2).writes.map Prod.snd
            = (translateFile env srcDb trgDb st0 p1 v1).writes.map Prod.snd := by
  obtain ⟨t, hcache, hwrites, hgc⟩ :=
    translateFile_success env srcDb trgDb st0 p1 src pr v1 hf1 h1
  rw [translateFile_hit_eq env srcDb trgDb (translateFile env srcDb trgDb st0 p1 v1).st
      p2 v2 src (pr.1, pr.2, t) hf2 hcache]
  refine ⟨(tfHit_state env _ (splitextBase p2) (pr.1, pr.2, t)).1, ?_, ?_⟩
  · rw [(tfHit_state env _ (splitextBase p2) (pr.1, pr.2, t)).1]
    omega
  · intro pr2 h2
    obtain ⟨hpr2, hw2⟩ := tfHit_success env _ (splitextBase p2) (pr.1, pr.2, t) pr2 h2
    refine ⟨hpr2.trans rfl, ?_⟩
    rw [hw2, hwrites]
    exact artifactWrites_snd (splitextBase p2) (splitextBase p1) pr.1 pr.2 t

/-- Concrete instantiation of the C1 theorem in the witness environment:
two input files with byte-identical content, the first call (blocking)
succeeding. -/
theorem c1_cache_at_most_once_witness :
    (translateFile envW emptyCtxDb emptyCtxDb
        (translateFile envW emptyCtxDb emptyCtxDb ⟨[], initDoneDb⟩ "in/a.lisp".data false).st
        "in/b.lisp".data true).genCalls = 0
    ∧ (translateFile envW emptyCtxDb emptyCtxDb ⟨[], initDoneDb⟩ "in/a.lisp".data false).genCalls
        + (translateFile envW emptyCtxDb emptyCtxDb
            (translateFile envW emptyCtxDb emptyCtxDb ⟨[], initDoneDb⟩ "in/a.lisp".data false).st
            "in/b.lisp".data true).genCalls ≤ 1
    ∧ ∀ pr2, (translateFile envW emptyCtxDb emptyCtxDb
          (translateFile envW emptyCtxDb emptyCtxDb ⟨[], initDoneDb⟩ "in/a.lisp".data false).st
          "in/b.lisp".data true).res = Except.ok pr2 →
        pr2 = ("(g y)".data, "fine".data)
        ∧ (translateFile envW emptyCtxDb emptyCtxDb
            (translateFile envW emptyCtxDb emptyCtxDb ⟨[], initDoneDb⟩ "in/a.lisp".data false).st
            "in/b.lisp".data true).writes.map Prod.snd
          = (translateFile envW emptyCtxDb emptyCtxDb ⟨[], initDoneDb⟩ "in/a.lisp".data false).writes.map Prod.snd :=
  c1_cache_at_most_once envW emptyCtxDb emptyCtxDb ⟨[], initDoneDb⟩
    "in/a.lisp".data "in/b.lisp".data "(f) ; c".data false true
    ("(g y)".data, "fine".data) (by decide) (by decide) (by decide)

/-- Claim C8: whenever `translate_file` returns the failure result, the
in-memory state — the translation cache in particular — is left unchanged,
and a later request for the same (still uncached) content performs a fresh
backend generation. -/
theorem c8_cache_only_on_success (env : Env) (srcDb trgDb : CtxDb) (st : TransState)
    (p : Str) (v : Bool) (e : Str)
    (h : (translateFile env srcDb trgDb st p v).res = Except.error e) :
    (translateFile env srcDb trgDb st p v).st = st
    ∧ ∀ p' src v', env.fs p' = some src →
        cacheFind (env.md5 src) st.cache = none →
        (translateFile env srcDb trgDb (translateFile env srcDb trgDb st p v).st p' v').genCalls = 1 := by
  have hst : (translateFile env srcDb trgDb st p v).st = st := by
    cases hf : env.fs p with
    | none => rw [translateFile_read_fail env srcDb trgDb st p v hf]
    | some src =>
      cases hc : cacheFind (env.md5 src) st.cache with
      | some w =>
        rw [translateFile_hit_eq env srcDb trgDb st p v src w hf hc]
        exact (tfHit_state env st (splitextBase p) w).2
      | none =>
        rw [translateFile_miss_eq env srcDb trgDb st p v src hf hc] at h ⊢
        exact tfMiss_error_state env srcDb trgDb st p src v e h
  refine ⟨hst, ?_⟩
  intro p' src v' hf' hc'
  rw [hst, translateFile_miss_eq env srcDb trgDb st p' v' src hf' hc']
  exact tfMiss_genCalls env srcDb trgDb st p' src v'

/-- Concrete instantiation of the C8 theorem: a file whose read fails leaves
the state unchanged, and a later request for uncached content generates. -/
theorem c8_cache_only_on_success_witness :
    (translateFile envW emptyCtxDb emptyCtxDb ⟨[], initDoneDb⟩ "missing.lisp".data false).st
        = (⟨[], initDoneDb⟩ : TransState)
    ∧ ∀ p' src v', envW.fs p' = some src →
        cacheFind (envW.md5 src) (⟨[], initDoneDb⟩ : TransState).cache = none →
        (translateFile envW emptyCtxDb emptyCtxDb
          (translateFile envW emptyCtxDb emptyCtxDb ⟨[], initDoneDb⟩ "missing.lisp".data false).st
          p' v').genCalls = 1 :=
  c8_cache_only_on_success envW emptyCtxDb emptyCtxDb ⟨[], initDoneDb⟩
    "missing.lisp".data false ("read failed: missing.lisp".data) (by decide)

/-- Claim C9: for a fixed backend response, the translation with streaming
enabled (accumulating the emitted fragments in order) and with streaming
disabled produce identical outcomes — same returned result, same artifact
writes, same state, same backend-call count — provided the concatenation of
the streamed fragments equals the blocking call's response text. -/
theorem c9_streaming_blocking_equiv (env : Env) (srcDb trgDb : CtxDb)
    (st : TransState) (p : Str)
    (hs : ∀ pr', (env.genStream pr').map joinParts = env.gen pr') :
    translateFile env srcDb trgDb st p true = translateFile env srcDb trgDb st p false := by
  cases hf : env.fs p with
  | none =>
    rw [translateFile_read_fail env srcDb trgDb st p true hf,
        translateFile_read_fail env srcDb trgDb st p false hf]
  | some src =>
    cases hc : cacheFind (env.md5 src) st.cache with
    | some w =>
      rw [translateFile_hit_eq env srcDb trgDb st p true src w hf hc,
          translateFile_hit_eq env srcDb trgDb st p false src w hf hc]
    | none =>
      rw [translateFile_miss_eq env srcDb trgDb st p true src hf hc,
          translateFile_miss_eq env srcDb trgDb st p false src hf hc]
      exact tfMiss_stream_eq env srcDb trgDb st p src (hs _)

/-- Concrete instantiation of the C9 theorem in the witness environment,
whose streamed fragments concatenate to its blocking response. -/
theorem c9_streaming_blocking_equiv_witness :
    translateFile envW emptyCtxDb emptyCtxDb ⟨[], initDoneDb⟩ "in/a.lisp".data true
      = translateFile envW emptyCtxDb emptyCtxDb ⟨[], initDoneDb⟩ "in/a.lisp".data false :=
  c9_streaming_blocking_equiv envW emptyCtxDb emptyCtxDb ⟨[], initDoneDb⟩
    "in/a.lisp".data (fun _ => rfl)

/-! ### Claim C3: the ledger update rule -/

/-- The path recorded by an event that appended to the ledger. -/
def appendedPath : DirEvent → Option Str
  | DirEvent.translated p _ true => some p
  | _ => none

theorem truthyCode_iff (r : Except Str (Str × Str)) :
    truthyCode r = true ↔ ∃ c m, r = Except.ok (c, m) ∧ c ≠ [] := by
  cases r with
  | error e => simp [truthyCode]
  | ok pr =>
    obtain ⟨c, m⟩ := pr
    simp [truthyCode]

theorem translateFilesLoop_spec (env : Env) (srcDb trgDb : CtxDb) :
    ∀ (files : List Str) (st : TransState) (ledger : List Str) (verbose : Bool),
    (translateFilesLoop env srcDb trgDb st ledger files verbose).ledger
        = ledger ++ ((translateFilesLoop env srcDb trgDb st ledger files verbose).events.filterMap appendedPath)
    ∧ ∀ p r app, DirEvent.translated p r app
          ∈ (translateFilesLoop env srcDb trgDb st ledger files verbose).events →
        app = truthyCode r := by
  intro files
  induction files with
  | nil =>
    intro st ledger verbose
    refine ⟨by simp [translateFilesLoop], ?_⟩
    intro p r app h
    simp [translateFilesLoop] at h
  | cons f rest ih =>
    intro st ledger verbose
    simp only [translateFilesLoop]
    by_cases hmem : f ∈ ledger
    · rw [if_pos hmem]
      refine ⟨?_, ?_⟩
      · simp only [List.filterMap_cons]
        show (translateFilesLoop env srcDb trgDb st ledger rest verbose).ledger
          = ledger ++ ((translateFilesLoop env srcDb trgDb st ledger rest verbose).events.filterMap appendedPath)
        exact (ih st ledger verbose).1
      · intro p r app h
        rcases List.mem_cons.mp h with h1 | h2
        · exact absurd h1 (by simp)
        · exact (ih st ledger verbose).2 p r app h2
    · rw [if_neg hmem]
      refine ⟨?_, ?_⟩
      · simp only [List.filterMap_cons]
        by_cases happ : truthyCode (translateFile env srcDb trgDb st f verbose).res
        · simp only [happ, if_pos rfl]
          rw [(ih _ _ verbose).1]
          simp [appendedPath, happ]
        · simp only [Bool.not_eq_true] at happ
          simp only [happ]
          rw [(ih _ _ verbose).1]
          simp [appendedPath, happ]
      · intro p r app h
        rcases List.mem_cons.mp h with h1 | h2
        · cases h1
          rfl
        · exact (ih _ _ verbose).2 p r app h2

/-- The witness environment with a backend that returns an empty response:
parsing yields an empty code string, a non-failure result that is
nevertheless not appended to the ledger. -/
def envEmptyGen : Env :=
  { envW with
    gen := fun _ => Except.ok []
    genStream := fun _ => Except.ok []
    listLisp := fun _ => ["in/a.lisp".data] }

/-- Claim C3 counterexample: the engine returns the non-None result
`(empty code, placeholder comments)` for a discovered, unledgered file, yet
the orchestrator does not append the path to the ledger, because the append
is gated on Python truthiness (`if translated:`) and the empty string is
falsy.  The claim's "exactly when the engine returns a non-None code
result" therefore fails. -/
theorem c3_counterexample :
    (translateDirectory envEmptyGen emptyCtxDb emptyCtxDb ⟨[], initDoneDb⟩ "in".data false).events
      = [DirEvent.translated "in/a.lisp".data (Except.ok ([], commentsPlaceholder)) false]
    ∧ ¬("in/a.lisp".data
        ∈ (translateDirectory envEmptyGen emptyCtxDb emptyCtxDb ⟨[], initDoneDb⟩ "in".data false).ledger) := by
  decide

/-- Claim C3 (amended): for every discovered file not already in the ledger,
the orchestrator invokes the engine and appends the file's path (flushing
immediately) exactly when the engine returns a non-None AND non-empty code
result; on a failure result or an empty code result the path is left absent
from the ledger so a future run retries it. -/
theorem c3_ledger_update_rule (env : Env) (srcDb trgDb : CtxDb)
    (files : List Str) (st : TransState) (ledger : List Str) (verbose : Bool) :
    (translateFilesLoop env srcDb trgDb st ledger files verbose).ledger
        = ledger ++ ((translateFilesLoop env srcDb trgDb st ledger files verbose).events.filterMap appendedPath)
    ∧ ∀ p r app, DirEvent.translated p r app
          ∈ (translateFilesLoop env srcDb trgDb st ledger files verbose).events →
        (app = true ↔ ∃ c m, r = Except.ok (c, m) ∧ c ≠ []) := by
  refine ⟨(translateFilesLoop_spec env srcDb trgDb files st ledger verbose).1, ?_⟩
  intro p r app h
  rw [(translateFilesLoop_spec env srcDb trgDb files st ledger verbose).2 p r app h]
  exact truthyCode_iff r

/-- Concrete instantiation of the amended C3 theorem: a run whose single
file succeeds with non-empty code and is appended. -/
theorem c3_ledger_update_rule_witness :
    (translateFilesLoop envW emptyCtxDb emptyCtxDb ⟨[], initDoneDb⟩ [] ["in/a.lisp".data] false).ledger
        = [] ++ ((translateFilesLoop envW emptyCtxDb emptyCtxDb ⟨[], initDoneDb⟩ []
            ["in/a.lisp".data] false).events.filterMap appendedPath)
    ∧ (true = true ↔ ∃ c m, (Except.ok ("(g y)".data, "fine".data) : Except Str (Str × Str))
          = Except.ok (c, m) ∧ c ≠ []) :=
  ⟨(c3_ledger_update_rule envW emptyCtxDb emptyCtxDb ["in/a.lisp".data] ⟨[], initDoneDb⟩ [] false).1,
   (c3_ledger_update_rule envW emptyCtxDb emptyCtxDb ["in/a.lisp".data] ⟨[], initDoneDb⟩ [] false).2
     "in/a.lisp".data (Except.ok ("(g y)".data, "fine".data)) true (by decide)⟩

/-! ### Claim C7: missing input directory at startup -/

theorem translateFilesLoop_events_length (env : Env) (srcDb trgDb : CtxDb) :
    ∀ (files : List Str) (st : TransState) (ledger : List Str) (verbose : Bool),
    (translateFilesLoop env srcDb trgDb st ledger files verbose).events.length = files.length := by
  intro files
  induction files with
  | nil => intro st ledger verbose; rfl
  | cons f rest ih =>
    intro st ledger verbose
    simp only [translateFilesLoop]
    by_cases hmem : f ∈ ledger
    · rw [if_pos hmem]; simp [ih]
    · rw [if_neg hmem]; simp [ih]

theorem buildEnhancedDatabase_absent (env : Env) (docPath : Str)
    (h1 : env.isdir docPath = false) (h2 : env.extract docPath = []) :
    buildEnhancedDatabase env docPath = emptyCtxDb := by
  simp [buildEnhancedDatabase, h1, h2, pyStrip]

theorem translateDirectory_events_length (env : Env) (srcDb trgDb : CtxDb)
    (st : TransState) (inputDir : Str) (verbose : Bool)
    (h : env.pathExists inputDir = true) :
    (translateDirectory env srcDb trgDb st inputDir verbose).events.length
      = (env.listLisp inputDir).length := by
  simp [translateDirectory, h, translateFilesLoop_events_length]

/-- An environment where the source-docs path is genuinely absent (not a
directory, extraction yields nothing), no persisted store exists, and the
input root contains one translatable file. -/
def envAbsent : Env :=
  { envW with
    pathExists := fun p => p = "in".data
    isdir := fun _ => false
    extract := fun _ => []
    listLisp := fun _ => ["in/a.lisp".data] }

/-- Claim C7 counterexample: with the required source-docs directory
genuinely absent while the source context store is built, the run does not
abort — the store is left empty and file processing still takes place (the
run produces a translation event), contradicting "aborts with a clear
diagnostic before any file processing begins". -/
theorem c7_counterexample :
    (runMain envAbsent "srcdocs".data "trgdocs".data "src_db.json".data
        "trg_db.json".data "in".data false).srcDb = emptyCtxDb
    ∧ (runMain envAbsent "srcdocs".data "trgdocs".data "src_db.json".data
        "trg_db.json".data "in".data false).dir.events ≠ [] := by
  decide

/-- Claim C7 (amended): when a required input directory is genuinely absent
while building a required context store, the run does not abort: the
affected store is built empty (after a printed diagnostic) and the run
proceeds to attempt every discovered file; no error category is fatal to
the whole run. -/
theorem c7_no_abort (env : Env) (srcDocs trgDocs srcDbPath trgDbPath inputDir : Str)
    (verbose : Bool)
    (h1 : env.isdir srcDocs = false) (h2 : env.extract srcDocs = [])
    (h3 : env.pathExists srcDbPath = false) (h4 : env.pathExists inputDir = true) :
    (runMain env srcDocs trgDocs srcDbPath trgDbPath inputDir verbose).srcDb = emptyCtxDb
    ∧ (runMain env srcDocs trgDocs srcDbPath trgDbPath inputDir verbose).dir.events.length
        = (env.listLisp inputDir).length := by
  have hbuild : buildEnhancedDatabase env srcDocs = emptyCtxDb :=
    buildEnhancedDatabase_absent env srcDocs h1 h2
  have hprep : prepareOne env srcDbPath srcDocs = emptyCtxDb := by
    simp [prepareOne, h3, hbuild]
  exact ⟨hprep, translateDirectory_events_length env _ _ _ inputDir verbose h4⟩

/-- Concrete instantiation of the amended C7 theorem in the absent-docs
environment. -/
theorem c7_no_abort_witness :
    (runMain envAbsent "srcdocs".data "trgdocs".data "src_db.json".data
        "trg_db.json".data "in".data false).srcDb = emptyCtxDb
    ∧ (runMain envAbsent "srcdocs".data "trgdocs".data "src_db.json".data
        "trg_db.json".data "in".data false).dir.events.length
        = (envAbsent.listLisp "in".data).length :=
  c7_no_abort envAbsent "srcdocs".data "trgdocs".data "src_db.json".data
    "trg_db.json".data "in".data false (by decide) (by decide) (by decide) (by decide)
